import Mathlib

/-!
Verification development for the NER bank-statement pipeline.

Shallow embedding of the repository's Python sources:
  * `src/newapproach/enhanced_extraction.py` (BankStatementExtractor)
  * `src/newapproach/process_multiple_pdfs.py` (BatchProcessor)
  * `src/src/pdf_processor.py` (PDFProcessor)
  * `src/main.py` (process_statement_folders, generate_summary)

Python strings are modelled as `List Char` so that slice offsets are
plain `Nat` counts of characters, exactly as in Python. External
collaborators (PyMuPDF page rendering, the OpenAI client, `json.loads`,
the spaCy model) are modelled as explicit inputs: a list of page texts,
an `Except`-valued API outcome, a parse function, an entity function.
-/

abbrev Chars := List Char

def strL (s : String) : Chars := s.data

/-- Characters removed by Python `str.strip()` (default whitespace set). -/
def pyIsSpace (c : Char) : Bool :=
  c = ' ' || c = '\t' || c = '\n' || c = '\r' || c = '\x0b' || c = '\x0c'

/-- Python `str.strip()` on a character list. -/
def stripL (l : Chars) : Chars :=
  ((l.dropWhile pyIsSpace).reverse.dropWhile pyIsSpace).reverse

/-- Python `str.strip()` on a `String`. -/
def pyStripS (s : String) : String := ⟨stripL s.data⟩

/-! ## enhanced_extraction.clean_text

`clean_text` normalizes unicode (NFKD, an external `unicodedata` call,
modelled as the identity: boundary detection below only ever runs on the
ASCII output of the subsequent substitution), replaces every character
outside `[\x20-\x7E\n:]` by a space, collapses runs of spaces and runs of
newlines, and strips the result. -/

/-- `re.sub(r"[^\x20-\x7E\n:]", " ", text)` on one character. -/
def keepAscii (c : Char) : Char :=
  if (0x20 ≤ c.toNat ∧ c.toNat ≤ 0x7E) ∨ c = '\n' ∨ c = ':' then c else ' '

/-- Collapse adjacent runs of the character `c` to a single `c`
(`re.sub(r"c+", "c", text)`). -/
def collapseRuns (c : Char) : Chars → Chars
  | [] => []
  | [a] => [a]
  | a :: b :: rest =>
    if a = c ∧ b = c then collapseRuns c (b :: rest)
    else a :: collapseRuns c (b :: rest)

/-- `BankStatementExtractor.extract_text.clean_text`. -/
def clean_text (t : Chars) : Chars :=
  stripL (collapseRuns '\n' (collapseRuns ' ' (t.map keepAscii)))

/-! ## Boundary patterns of `BankStatementExtractor.extract_text`

All three `table_markers` are `^`-anchored and searched with
`re.MULTILINE`, so `re.search` returns the start offset of the first
line (in order) whose contents satisfy the marker; we model each marker
by its line predicate and compute the first matching line-start offset. -/

/-- Split on newline characters; `n` newlines yield `n + 1` segments. -/
def splitLinesAux (cur : Chars) : Chars → List Chars
  | [] => [cur.reverse]
  | c :: rest =>
    if c = '\n' then cur.reverse :: splitLinesAux [] rest
    else splitLinesAux (c :: cur) rest

def splitLines (t : Chars) : List Chars := splitLinesAux [] t

/-- First line-start offset whose line satisfies `p`. -/
def firstLineMatchAux (p : Chars → Bool) : Nat → List Chars → Option Nat
  | _, [] => none
  | off, l :: ls =>
    if p l then some off else firstLineMatchAux p (off + l.length + 1) ls

def firstLineMatch (p : Chars → Bool) (t : Chars) : Option Nat :=
  firstLineMatchAux p 0 (splitLines t)

/-- Substring test on character lists. -/
def containsSub (pat : Chars) : Chars → Bool
  | [] => pat.isEmpty
  | c :: rest => pat.isPrefixOf (c :: rest) || containsSub pat rest

def lowerL (l : Chars) : Chars := l.map Char.toLower

/-- Marker `(?i)^.*?(Date|Transaction|Particulars|Description)`: the line
contains one of the keywords, case-insensitively. -/
def marker1Line (l : Chars) : Bool :=
  let low := lowerL l
  containsSub (strL "date") low || containsSub (strL "transaction") low ||
  containsSub (strL "particulars") low || containsSub (strL "description") low

def dateSep (c : Char) : Bool := c = '-' || c = '/'

/-- Marker `^\d{2}[dash-or-slash]\d{2}[dash-or-slash]\d{2,4}`: the line starts with a date-like
token (two digits, separator, two digits, separator, at least two digits). -/
def marker2Line : Chars → Bool
  | d1 :: d2 :: s1 :: d3 :: d4 :: s2 :: d5 :: d6 :: _ =>
    d1.isDigit && d2.isDigit && dateSep s1 && d3.isDigit && d4.isDigit &&
    dateSep s2 && d5.isDigit && d6.isDigit
  | _ => false

/-- Marker `^Balance brought forward` (case-sensitive). -/
def marker3Line (l : Chars) : Bool := (strL "Balance brought forward").isPrefixOf l

/-- Offsets of the three `table_markers`, in source list order. -/
def markerOffsets (t : Chars) : List (Option Nat) :=
  [firstLineMatch marker1Line t, firstLineMatch marker2Line t,
   firstLineMatch marker3Line t]

/-- The source's `for marker in table_markers` loop: the first marker in
list order that matches anywhere on the page wins, with its own offset. -/
def firstMarkerHit (t : Chars) : Option Nat :=
  (firstLineMatch marker1Line t) <|> (firstLineMatch marker2Line t) <|>
  (firstLineMatch marker3Line t)

/-- The boundary the spec describes: the earliest match offset across all
patterns on the page. Stated from the spec's words, for comparison with
`firstMarkerHit` above. -/
def earliestMarkerOff (t : Chars) : Option Nat :=
  match (markerOffsets t).filterMap id with
  | [] => none
  | x :: xs => some (xs.foldl min x)

/-- The page loop of `BankStatementExtractor.extract_text`: `acc` is the
`full_text` accumulator. -/
def extractGo : List Chars → Chars → Chars
  | [], acc => stripL acc
  | p :: rest, acc =>
    let ct := clean_text p
    match firstMarkerHit ct with
    | some off => stripL (acc ++ ct.take off)
    | none => extractGo rest (acc ++ ct ++ ['\n'])

/-- `BankStatementExtractor.extract_text`, given the rendered page texts. -/
def extract_text (pages : List Chars) : Chars := extractGo pages []

/-! ## Boundary patterns of `PDFProcessor._extract_text_from_pdf`

The five `table_indicators` are unanchored and searched with
`re.IGNORECASE | re.MULTILINE`; each is modelled by a
match-at-position consumer over the lowercased text, and `re.search`
by the smallest matching start offset. -/

/-- Python regex `\s`. -/
def isReWs (c : Char) : Bool :=
  c = ' ' || c = '\t' || c = '\n' || c = '\r' || c = '\x0b' || c = '\x0c'

/-- Consume a literal. -/
def litP (pat : Chars) (t : Chars) : Option Chars :=
  if pat.isPrefixOf t then some (t.drop pat.length) else none

/-- Consume `\s+` (greedy; all following atoms start with non-whitespace). -/
def wsPlus : Chars → Option Chars
  | c :: rest => if isReWs c then some (rest.dropWhile isReWs) else none
  | [] => none

/-- Consume exactly `n` digits (`\d{n}`). -/
def digitsExact : Nat → Chars → Option Chars
  | 0, t => some t
  | n + 1, c :: rest => if c.isDigit then digitsExact n rest else none
  | _ + 1, [] => none

/-- Consume `\d+` (greedy; the following atom is a literal dot). -/
def digitsPlus : Chars → Option Chars
  | c :: rest => if c.isDigit then some (rest.dropWhile Char.isDigit) else none
  | [] => none

/-- Consume `[dash-or-slash]`. -/
def sepP : Chars → Option Chars
  | c :: rest => if dateSep c then some rest else none
  | [] => none

/-- Consume one given character. -/
def charP (c : Char) : Chars → Option Chars
  | d :: rest => if d = c then some rest else none
  | [] => none

/-- `.*?pat` where `.` does not match a newline: scan forward over
non-newline characters looking for `pat`. -/
def scanNoNl (pat : Chars) : Chars → Bool
  | [] => pat.isEmpty
  | c :: rest => pat.isPrefixOf (c :: rest) || (c ≠ '\n' && scanNoNl pat rest)

/-- `Date\s+Dr Amount\s+Cr Amount\s+Total Amount` at the given position. -/
def ind1 (t : Chars) : Bool :=
  (litP (strL "date") t |>.bind wsPlus |>.bind (litP (strL "dr amount"))
    |>.bind wsPlus |>.bind (litP (strL "cr amount")) |>.bind wsPlus
    |>.bind (litP (strL "total amount"))).isSome

/-- `Date\s+Particulars\s+Instruments` at the given position. -/
def ind2 (t : Chars) : Bool :=
  (litP (strL "date") t |>.bind wsPlus |>.bind (litP (strL "particulars"))
    |>.bind wsPlus |>.bind (litP (strL "instruments"))).isSome

/-- `\d{2}[dash-or-slash]\d{2}[dash-or-slash]\d{4}\s+\d+\.\d{2}\s+` at the given position. -/
def ind3 (t : Chars) : Bool :=
  (digitsExact 2 t |>.bind sepP |>.bind (digitsExact 2) |>.bind sepP
    |>.bind (digitsExact 4) |>.bind wsPlus |>.bind digitsPlus
    |>.bind (charP '.') |>.bind (digitsExact 2) |>.bind wsPlus).isSome

/-- `Opening Balance.*?Closing Balance` at the given position. -/
def ind4 (t : Chars) : Bool :=
  match litP (strL "opening balance") t with
  | some rest => scanNoNl (strL "closing balance") rest
  | none => false

/-- `Transaction Details:` at the given position. -/
def ind5 (t : Chars) : Bool := (litP (strL "transaction details:") t).isSome

/-- `re.search`: smallest offset at which the matcher fires. -/
def searchOffAux (m : Chars → Bool) : Nat → Chars → Option Nat
  | i, [] => if m [] then some i else none
  | i, c :: rest => if m (c :: rest) then some i else searchOffAux m (i + 1) rest

def searchOff (m : Chars → Bool) (t : Chars) : Option Nat := searchOffAux m 0 t

/-- First-match offsets of the five `table_indicators` on the (lowercased,
for `re.IGNORECASE`) first-page text, in source list order. -/
def indicatorOffsets (t : Chars) : List (Option Nat) :=
  let low := lowerL t
  [searchOff ind1 low, searchOff ind2 low, searchOff ind3 low,
   searchOff ind4 low, searchOff ind5 low]

/-- One step of the `table_start_pos` minimisation loop:
`if match and match.start() < table_start_pos: table_start_pos = match.start()`. -/
def minStep (pos : Nat) (o : Option Nat) : Nat :=
  match o with
  | some s => if s < pos then s else pos
  | none => pos

/-- `table_start_pos` of `PDFProcessor._extract_text_from_pdf`, starting
from `len(first_page_text)`. -/
def tableStartPos (t : Chars) : Nat := (indicatorOffsets t).foldl minStep t.length

/-- `header_content = first_page_text[:table_start_pos].strip()`. -/
def headerContent (t : Chars) : Chars := stripL (t.take (tableStartPos t))

/-- Outcome of `fitz.open` plus page access in `_extract_text_from_pdf`:
either the rendered page texts or a raised rendering exception. -/
inductive PdfRender where
  | ok (pages : List Chars)
  | err (msg : String)

/-- `PDFProcessor._extract_text_from_pdf`: reads `doc[0]` only; any
exception (including indexing an empty document) is caught and converted
to an error value. File output of the header is external I/O and carries
no information used later. -/
def extract_text_from_pdf : PdfRender → Except String Chars
  | .err e => .error ("Failed to extract text from PDF: " ++ e)
  | .ok [] => .error "Failed to extract text from PDF: page 0 not in document"
  | .ok (p :: _) => .ok (headerContent p)

/-! ## PDFProcessor (src/src/pdf_processor.py) -/

/-- `ExtractedEntity` as constructed by `PDFProcessor._process_with_spacy`.
Modelled from the spec: the dataclass lives in `src.data_models`, which is
not part of the repository snapshot; §3 of the spec gives an entity as
label, text and offsets. -/
structure ExtractedEntity where
  text : Chars
  label : String
  start_char : Nat
  end_char : Nat
deriving Repr, DecidableEq

/-- Modelled from the spec: `ProcessedDocument` (the `src.data_models`
module is not part of the repository snapshot). §3 gives
`{filename, timestamp, header_text, entities, metadata, error: ErrorInfo?}`
with `error` optional; a field not passed at construction is unset.
Timestamp and metadata carry no information used by any claim and are
omitted. -/
structure ProcessedDocument where
  filename : String
  raw_text : Chars
  preprocessed_text : Chars
  entities : List ExtractedEntity
  error : Option String := none
deriving Repr, DecidableEq

/-- `PDFProcessor.process_single_pdf`. The state is the processor's
`processed_documents` list; `spacyRun` is the external spaCy model run
(`_process_with_spacy`), whose raised exceptions appear as `.error` and
are caught by the surrounding `try`. Returns the new state and the
returned document. -/
def process_single_pdf (st : List ProcessedDocument) (filename : String)
    (render : PdfRender) (spacyRun : Chars → Except String (List ExtractedEntity)) :
    List ProcessedDocument × ProcessedDocument :=
  match extract_text_from_pdf render with
  | .error e =>
    (st, { filename := filename, raw_text := [], preprocessed_text := [],
           entities := [], error := some e })
  | .ok header =>
    match spacyRun header with
    | .error e =>
      (st, { filename := filename, raw_text := [], preprocessed_text := [],
             entities := [], error := some e })
    | .ok ents =>
      let doc : ProcessedDocument :=
        { filename := filename, raw_text := header, preprocessed_text := header,
          entities := ents }
      (st ++ [doc], doc)

structure PdfSummary where
  total_documents : Nat
  successful : Nat
  failed : Nat
  total_entities : Nat
deriving Repr, DecidableEq

/-- `PDFProcessor.get_summary`. -/
def get_summary (st : List ProcessedDocument) : PdfSummary :=
  { total_documents := st.length
  , successful := (st.filter (fun d => d.error.isNone)).length
  , failed := (st.filter (fun d => d.error.isSome)).length
  , total_entities := (st.map (fun d => d.entities.length)).sum }

/-- One per-file input to `process_single_pdf`: filename, render outcome,
and the external spaCy run. -/
abbrev PdfInput := String × PdfRender × (Chars → Except String (List ExtractedEntity))

def runStep (st : List ProcessedDocument) (inp : PdfInput) : List ProcessedDocument :=
  (process_single_pdf st inp.1 inp.2.1 inp.2.2).1

/-- A sequence of `process_single_pdf` calls on a freshly constructed
`PDFProcessor` (empty `processed_documents`). -/
def runAll (inputs : List PdfInput) : List ProcessedDocument :=
  inputs.foldl runStep []

/-! ## BankStatementExtractor LLM step (enhanced_extraction.py) -/

/-- The validated result of `get_entities_from_llm`. -/
structure LlmEntities where
  account_number : String
  name : String
deriving Repr, DecidableEq

/-- Python `str.replace`: scan left to right, replacing each
non-overlapping occurrence of `pat` by `rep`. The fuel argument (the
input length) only forces structural recursion; every pattern used below
is non-empty, so each step consumes at least one character. -/
def replaceFuel (pat rep : Chars) : Nat → Chars → Chars
  | _, [] => []
  | 0, t => t
  | fuel + 1, c :: rest =>
    if !pat.isEmpty && pat.isPrefixOf (c :: rest) then
      rep ++ replaceFuel pat rep fuel ((c :: rest).drop pat.length)
    else c :: replaceFuel pat rep fuel rest

def pyReplace (s pat rep : String) : String :=
  ⟨replaceFuel pat.data rep.data s.data.length s.data⟩

/-- The single cleanup pass applied to an unparseable response:
`content.replace("\n", "").replace("```json", "").replace("```", "")`. -/
def cleanupContent (c : String) : String :=
  pyReplace (pyReplace (pyReplace c "\n" "") "```json" "") "```" ""

/-- A parsed flat JSON object with string values, as produced by
`json.loads` on the model's response. -/
abbrev JsonObj := List (String × String)

/-- Python `field in result` / `result[field]` on the parsed object. -/
def lookupKey (r : JsonObj) (k : String) : Option String :=
  (r.find? (fun p => p.1 = k)).map (fun p => p.2)

/-- `BankStatementExtractor.get_entities_from_llm`. `parseJson` is the
external `json.loads` (returning `none` where Python raises
`JSONDecodeError`); `api` is the chat-completion call, whose own failures
(transport errors, empty choices) arrive as `.error`. All raised errors
propagate to the caller (the source's `except` clause re-raises). -/
def get_entities_from_llm (parseJson : String → Option JsonObj)
    (api : Except String String) : Except String LlmEntities :=
  match api with
  | .error e => .error e
  | .ok raw =>
    let content := pyStripS raw
    let parsed :=
      match parseJson content with
      | some r => some r
      | none => parseJson (cleanupContent content)
    match parsed with
    | none => .error "JSONDecodeError after cleanup"
    | some r =>
      match lookupKey r "account_number", lookupKey r "name" with
      | some a, some n => .ok { account_number := pyStripS a, name := pyStripS n }
      | _, _ => .error "Missing required fields"

/-- Python `str.find`: offset of the first occurrence, if any. -/
def findSubAux (pat : Chars) : Nat → Chars → Option Nat
  | i, [] => if pat.isEmpty then some i else none
  | i, c :: rest =>
    if pat.isPrefixOf (c :: rest) then some i else findSubAux pat (i + 1) rest

def findSub (pat t : Chars) : Option Nat := findSubAux pat 0 t

/-- One entry of the `annotations` list built by `process_statement`
(source keys: text, start, end, label; `end` is a Lean keyword, hence
`stop`). -/
structure Ann where
  text : Chars
  start : Nat
  stop : Nat
  label : String
deriving Repr, DecidableEq

/-- The position-resolution section of `process_statement`: account number
first, then name; an entity whose text is not found (`find` returns -1) is
not appended. The `"account_number" in entities` membership tests of the
source always hold for the typed record. -/
def resolveAnns (text : Chars) (ents : LlmEntities) : List Ann :=
  let accPat := strL ents.account_number
  let namePat := strL ents.name
  let accAnns :=
    match findSub accPat text with
    | some s => [{ text := accPat, start := s, stop := s + accPat.length,
                   label := "ACC_NO"  : Ann }]
    | none => []
  let perAnns :=
    match findSub namePat text with
    | some s => [{ text := namePat, start := s, stop := s + namePat.length,
                   label := "PER"  : Ann }]
    | none => []
  accAnns ++ perAnns

/-- The dict returned by `process_statement`: either
`{"text": ..., "entities": [...]}` or `{"error": ...}` (in which case
neither a text nor an entity list is present). -/
structure StmtResult where
  text : Option Chars := none
  entities : List Ann := []
  error : Option String := none
deriving Repr, DecidableEq

/-- `BankStatementExtractor.process_statement`. `render` is the outcome of
opening and reading the document inside `extract_text` (whose own raised
exceptions re-raise into this function's `except`); `parseJson`/`api` feed
`get_entities_from_llm`. Every exception is caught and returned as the
error dict. -/
def process_statement (render : Except String (List Chars))
    (parseJson : String → Option JsonObj) (api : Except String String) : StmtResult :=
  match render with
  | .error e => { error := some e }
  | .ok pages =>
    let text := extract_text pages
    match get_entities_from_llm parseJson api with
    | .error e => { error := some e }
    | .ok ents => { text := some text, entities := resolveAnns text ents }

/-! ## BatchProcessor (process_multiple_pdfs.py) -/

/-- One discovered PDF file, with the outcomes of its external
interactions: `openResult` is `fitz.open` in `is_password_protected`
(`none` when opening raises, otherwise `is_encrypted`); the remaining
fields feed `process_statement`. -/
structure PdfFile where
  name : String
  openResult : Option Bool
  render : Except String (List Chars)
  parseJson : String → Option JsonObj
  api : Except String String

/-- `BatchProcessor.is_password_protected`: `True` when opening raises
("Assume protected if can't open"). -/
def is_password_protected (f : PdfFile) : Bool := f.openResult.getD true

/-- The processed/failed/skipped counters of `BatchProcessor`. -/
structure BatchCounts where
  processed : Nat := 0
  failed : Nat := 0
  skipped : Nat := 0
deriving Repr, DecidableEq

/-- The per-file body of `BatchProcessor.process_directory`. The
surrounding `try` is kept by classifying on the error field of the dict
`process_statement` returns; `process_statement` itself never raises. -/
def processFile (c : BatchCounts) (f : PdfFile) : BatchCounts :=
  if is_password_protected f then { c with skipped := c.skipped + 1 }
  else
    let r := process_statement f.render f.parseJson f.api
    if r.error.isNone then { c with processed := c.processed + 1 }
    else { c with failed := c.failed + 1 }

/-- `BatchProcessor.process_directory` over the discovered files, on a
freshly constructed processor (all counters zero). -/
def process_directory (files : List PdfFile) : BatchCounts :=
  files.foldl processFile {}

structure BatchSummary where
  total_processed : Nat
  successful : Nat
  failed : Nat
  skipped : Nat
deriving Repr, DecidableEq

/-- The summary dict written by `BatchProcessor.save_reports`. -/
def save_reports_summary (c : BatchCounts) : BatchSummary :=
  { total_processed := c.processed, successful := c.processed,
    failed := c.failed, skipped := c.skipped }

/-! ## main.py: process_statement_folders and generate_summary -/

/-- Outcome of one `processor.process_single_pdf` call as seen by
`process_statement_folders`: the returned document, or an unexpected
exception reaching the `except` clause. -/
inductive MainOutcome where
  | res (d : ProcessedDocument)
  | raised (msg : String)

/-- One entry of `all_results` as consumed by `generate_summary`:
`processing_status` and the per-label entity dicts (text and the
`confidence` value, which `hasattr` may leave absent/None). Confidence is
modelled over `ℚ`. -/
structure MainRecord where
  pdf_name : String
  success : Bool
  perEnt : Option (Chars × Option ℚ)
  accEnt : Option (Chars × Option ℚ)
deriving Repr, DecidableEq

/-- The entity-dict comprehension of `process_statement_folders`: keyed by
label, so the last entity with a given label wins. -/
def entLookup (label : String) (ents : List ExtractedEntity) : Option Chars :=
  ((ents.reverse).find? (fun e => e.label = label)).map (fun e => e.text)

/-- The success record appended by `process_statement_folders`.
`ExtractedEntity` has no confidence attribute, so the recorded
confidence is absent. -/
def mkSuccessRecord (name : String) (d : ProcessedDocument) : MainRecord :=
  { pdf_name := name
  , success := true
  , perEnt := (entLookup "PER" d.entities).map (fun t => (t, (none : Option ℚ)))
  , accEnt := (entLookup "ACC NO" d.entities).map (fun t => (t, (none : Option ℚ))) }

def containsSubS (pat s : String) : Bool := containsSub pat.data s.data

/-- The per-file body of `process_statement_folders`: a result with an
error is skipped with `continue` whether or not the error mentions
password protection (both branches only log); a successful result appends
a success record; an unexpected exception appends a failed record. -/
def mainStep (acc : List MainRecord) (name : String) : MainOutcome → List MainRecord
  | .raised _ =>
    acc ++ [{ pdf_name := name, success := false, perEnt := none, accEnt := none }]
  | .res d =>
    match d.error with
    | some e =>
      if containsSubS "password protected" (⟨lowerL e.data⟩ : String) then acc
      else acc
    | none => acc ++ [mkSuccessRecord name d]

/-- `process_statement_folders` restricted to its tallying behaviour: the
`all_results` list built over the discovered files. -/
def process_statement_folders (files : List (String × MainOutcome)) : List MainRecord :=
  files.foldl (fun a f => mainStep a f.1 f.2) []

/-- One confidence-bucket entry of `generate_summary`. -/
structure ConfMatch where
  file : String
  entity : String
  text : Chars
  confidence : Option ℚ
deriving Repr, DecidableEq

/-- Python truthiness of the retrieved confidence value
(`entities[label].get("confidence", 0)`): an absent key or a `None` or
zero value is falsy. -/
def pyTruthy : Option ℚ → Bool
  | none => false
  | some q => q ≠ 0

/-- The source's `if confidence and confidence > 0.8`. -/
def isHigh (conf : Option ℚ) : Bool :=
  pyTruthy conf && decide ((0.8 : ℚ) < conf.getD 0)

def isHighM (m : ConfMatch) : Bool := isHigh m.confidence

/-- The per-result body of `generate_summary`'s bucketing loop: for a
successful result, the PER entity (if present) and then the ACC NO entity
(if present) are appended to the high- or low-confidence list. -/
def bucketStep (st : List ConfMatch × List ConfMatch) (r : MainRecord) :
    List ConfMatch × List ConfMatch :=
  if r.success then
    let st1 :=
      match r.perEnt with
      | some (t, c) =>
        if isHigh c then (st.1 ++ [{ file := r.pdf_name, entity := "PER", text := t, confidence := c }], st.2)
        else (st.1, st.2 ++ [{ file := r.pdf_name, entity := "PER", text := t, confidence := c }])
      | none => st
    match r.accEnt with
    | some (t, c) =>
      if isHigh c then (st1.1 ++ [{ file := r.pdf_name, entity := "ACC NO", text := t, confidence := c }], st1.2)
      else (st1.1, st1.2 ++ [{ file := r.pdf_name, entity := "ACC NO", text := t, confidence := c }])
    | none => st1
  else st

/-- The `high_confidence_matches`/`low_confidence_matches` lists of
`generate_summary`. -/
def confBuckets (rs : List MainRecord) : List ConfMatch × List ConfMatch :=
  rs.foldl bucketStep ([], [])

/-- The label-entity occurrences of the successful results, in processing
order — the population the confidence buckets draw from. -/
def resultMatches (r : MainRecord) : List ConfMatch :=
  (match r.perEnt with
   | some (t, c) => [{ file := r.pdf_name, entity := "PER", text := t, confidence := c }]
   | none => []) ++
  (match r.accEnt with
   | some (t, c) => [{ file := r.pdf_name, entity := "ACC NO", text := t, confidence := c }]
   | none => [])

def successMatches (rs : List MainRecord) : List ConfMatch :=
  (rs.filter (fun r => r.success)).flatMap resultMatches

structure GenSummary where
  totalPdfs : Nat
  successful : Nat
  failed : Nat
  highConf : List ConfMatch
  lowConf : List ConfMatch
deriving Repr, DecidableEq

/-- `generate_summary`, restricted to the counts and confidence buckets
the claims are about. -/
def generate_summary (rs : List MainRecord) : GenSummary :=
  let successful := (rs.filter (fun r => r.success)).length
  let buckets := confBuckets rs
  { totalPdfs := rs.length
  , successful := successful
  , failed := rs.length - successful
  , highConf := buckets.1
  , lowConf := buckets.2 }

/-! ## Classification predicates and concrete example inputs -/

/-- Files that `process_statement_folders` records at all (success record
or exception record); files whose result carries an error are dropped by
`continue`. -/
def keptMain : MainOutcome → Bool
  | .raised _ => true
  | .res d => d.error.isNone

def succMain : MainOutcome → Bool
  | .raised _ => false
  | .res d => d.error.isNone

def raisedMain : MainOutcome → Bool
  | .raised _ => true
  | .res _ => false

/-- The records `mainStep` appends for one file. -/
def mainRecs (name : String) : MainOutcome → List MainRecord
  | .raised _ =>
    [{ pdf_name := name, success := false, perEnt := none, accEnt := none }]
  | .res d =>
    match d.error with
    | some _ => []
    | none => [mkSuccessRecord name d]

def parseGood : String → Option JsonObj :=
  fun s => if s = "resp" then some [("account_number", "12345"), ("name", "Jane Doe")] else none

def goodPage : Chars := strL "Name: Jane Doe\nAcc No: 12345"

/-- A document that opens unencrypted and processes successfully. -/
def goodFile : PdfFile :=
  { name := "good.pdf", openResult := some false, render := .ok [goodPage],
    parseJson := parseGood, api := .ok "resp" }

/-- An encrypted document (`is_encrypted` is true). -/
def encryptedFile : PdfFile :=
  { name := "locked.pdf", openResult := some true, render := .error "encrypted",
    parseJson := parseGood, api := .error "never reached" }

/-- A document that opens in the pre-check but whose rendering inside
`extract_text` fails (corrupt content). -/
def corruptFile : PdfFile :=
  { name := "corrupt.pdf", openResult := some false,
    render := .error "cannot render page", parseJson := parseGood,
    api := .error "never reached" }

/-- A document `fitz.open` cannot open at all in `is_password_protected`. -/
def unopenableFile : PdfFile :=
  { name := "broken.pdf", openResult := none,
    render := .error "cannot open broken file", parseJson := parseGood,
    api := .error "never reached" }

/-- A pipeline result whose error field reports a corrupt (non-password)
failure, as `process_single_pdf` returns it. -/
def corruptDoc : ProcessedDocument :=
  { filename := "f1.pdf", raw_text := [], preprocessed_text := [],
    entities := [], error := some "corrupt stream" }

def parseEmptyFields : String → Option JsonObj :=
  fun _ => some [("account_number", ""), ("name", "  Bo b  ")]

def parseScenD : String → Option JsonObj :=
  fun s => if s = "OBJ" then some [("account_number", "123"), ("name", "Jane")] else none

/-- A malformed response: valid payload wrapped in a markdown code fence. -/
def fencedRaw : String := "```json\nOBJ\n```"

/-- A parse outcome whose entity texts do not occur in the header. -/
def parseUnloc : String → Option JsonObj :=
  fun _ => some [("account_number", "999"), ("name", "Bob")]

/-! ## Claim C1: the per-document pipeline converts failures to data -/

/-- Claim C1: neither `PDFProcessor.process_single_pdf` nor
`BankStatementExtractor.process_statement` propagates an exception: both
are total, and on any rendering or extraction failure they return a
result whose error field is set and whose entity list is empty. -/
theorem claim_C1 :
    (∀ st name render spacy e, extract_text_from_pdf render = .error e →
       (process_single_pdf st name render spacy).2.error = some e ∧
       (process_single_pdf st name render spacy).2.entities = []) ∧
    (∀ st name render spacy h e, extract_text_from_pdf render = .ok h →
       spacy h = .error e →
       (process_single_pdf st name render spacy).2.error = some e ∧
       (process_single_pdf st name render spacy).2.entities = []) ∧
    (∀ parse api e, process_statement (.error e) parse api =
       { text := none, entities := [], error := some e }) ∧
    (∀ pages parse api e, get_entities_from_llm parse api = .error e →
       process_statement (.ok pages) parse api =
         { text := none, entities := [], error := some e }) := by
  refine ⟨?_, ?_, ?_, ?_⟩
  · intro st name render spacy e h
    simp [process_single_pdf, h]
  · intro st name render spacy h e h1 h2
    simp [process_single_pdf, h1, h2]
  · intro parse api e
    simp [process_statement]
  · intro pages parse api e h
    simp [process_statement, h]

theorem claim_C1_witness :
    (process_single_pdf [] "f.pdf" (.err "boom") (fun _ => .ok [])).2.error =
      some "Failed to extract text from PDF: boom" ∧
    (process_single_pdf [] "f.pdf" (.err "boom") (fun _ => .ok [])).2.entities = [] :=
  claim_C1.1 [] "f.pdf" (.err "boom") (fun _ => .ok [])
    "Failed to extract text from PDF: boom" rfl

/-! ## Claim C2: conservation of batch tallies -/

lemma processFile_total (c : BatchCounts) (f : PdfFile) :
    (processFile c f).processed + (processFile c f).failed + (processFile c f).skipped =
      c.processed + c.failed + c.skipped + 1 := by
  unfold processFile
  by_cases hp : is_password_protected f
  · simp [hp]; omega
  · by_cases he : (process_statement f.render f.parseJson f.api).error.isNone
    · simp [hp, he]; omega
    · simp [hp, he]; omega

lemma foldl_processFile_total (files : List PdfFile) :
    ∀ c : BatchCounts,
      (files.foldl processFile c).processed + (files.foldl processFile c).failed +
          (files.foldl processFile c).skipped =
        c.processed + c.failed + c.skipped + files.length := by
  induction files with
  | nil => intro c; simp
  | cons f fs ih =>
    intro c
    have h1 := processFile_total c f
    have h2 := ih (processFile c f)
    simp only [List.foldl_cons, List.length_cons]
    omega

lemma mainStep_eq (acc : List MainRecord) (name : String) (oc : MainOutcome) :
    mainStep acc name oc = acc ++ mainRecs name oc := by
  cases oc with
  | raised m => rfl
  | res d =>
    cases hd : d.error with
    | none => simp [mainStep, mainRecs, hd]
    | some e =>
      simp only [mainStep, mainRecs, hd]
      split <;> simp

lemma psf_foldl_eq (files : List (String × MainOutcome)) :
    ∀ acc : List MainRecord,
      files.foldl (fun a f => mainStep a f.1 f.2) acc =
        acc ++ (files.map (fun f => mainRecs f.1 f.2)).flatten := by
  induction files with
  | nil => intro acc; simp
  | cons f fs ih =>
    intro acc
    simp only [List.foldl_cons, List.map_cons, List.flatten_cons]
    rw [mainStep_eq, ih, List.append_assoc]

lemma psf_eq (files : List (String × MainOutcome)) :
    process_statement_folders files = (files.map (fun f => mainRecs f.1 f.2)).flatten := by
  unfold process_statement_folders
  rw [psf_foldl_eq]
  simp

lemma mainRecs_length (name : String) (oc : MainOutcome) :
    (mainRecs name oc).length = if keptMain oc then 1 else 0 := by
  cases oc with
  | raised m => rfl
  | res d => cases hd : d.error <;> simp [mainRecs, keptMain, hd]

lemma mainRecs_succ_length (name : String) (oc : MainOutcome) :
    ((mainRecs name oc).filter (fun r => r.success)).length =
      if succMain oc then 1 else 0 := by
  cases oc with
  | raised m => rfl
  | res d => cases hd : d.error <;> simp [mainRecs, succMain, hd, mkSuccessRecord]

lemma kept_split (files : List (String × MainOutcome)) :
    files.countP (fun f => keptMain f.2) =
      files.countP (fun f => succMain f.2) + files.countP (fun f => raisedMain f.2) := by
  induction files with
  | nil => rfl
  | cons f fs ih =>
    simp only [List.countP_cons]
    have : (if keptMain f.2 then 1 else 0) =
        (if succMain f.2 then 1 else 0) + (if raisedMain f.2 then 1 else 0) := by
      rcases f with ⟨n, oc⟩
      cases oc with
      | raised m => rfl
      | res d => cases hd : d.error <;> simp [keptMain, succMain, raisedMain, hd]
    omega

lemma psf_length (files : List (String × MainOutcome)) :
    (process_statement_folders files).length = files.countP (fun f => keptMain f.2) := by
  rw [psf_eq]
  induction files with
  | nil => rfl
  | cons f fs ih =>
    simp only [List.map_cons, List.flatten_cons, List.length_append, ih,
      List.countP_cons, mainRecs_length]
    split <;> omega

lemma psf_succ_length (files : List (String × MainOutcome)) :
    ((process_statement_folders files).filter (fun r => r.success)).length =
      files.countP (fun f => succMain f.2) := by
  rw [psf_eq]
  induction files with
  | nil => rfl
  | cons f fs ih =>
    simp only [List.map_cons, List.flatten_cons, List.filter_append,
      List.length_append, ih, List.countP_cons, mainRecs_succ_length]
    split <;> omega

/-- Claim C2 (amended): conservation holds for
`BatchProcessor.process_directory` — skipped + failed + successful equals
the number of discovered files, both in the counters and in the summary
dict `save_reports` writes. In `main.process_statement_folders`, however,
a file whose pipeline result carries an error (password-protected or not)
is dropped by `continue` and appears in no tally: the emitted summary
counts only files that succeeded or raised an unexpected exception, with
successful = succeeded and failed = raised. -/
theorem claim_C2_amended :
    (∀ files : List PdfFile,
       (process_directory files).processed + (process_directory files).failed +
         (process_directory files).skipped = files.length) ∧
    (∀ files : List PdfFile,
       (save_reports_summary (process_directory files)).successful +
         (save_reports_summary (process_directory files)).failed +
         (save_reports_summary (process_directory files)).skipped = files.length) ∧
    (∀ files : List (String × MainOutcome),
       (generate_summary (process_statement_folders files)).totalPdfs =
         files.countP (fun f => keptMain f.2) ∧
       (generate_summary (process_statement_folders files)).successful =
         files.countP (fun f => succMain f.2) ∧
       (generate_summary (process_statement_folders files)).failed =
         files.countP (fun f => raisedMain f.2)) := by
  refine ⟨?_, ?_, ?_⟩
  · intro files
    have := foldl_processFile_total files {}
    simpa [process_directory] using this
  · intro files
    have := foldl_processFile_total files {}
    simpa [process_directory, save_reports_summary] using this
  · intro files
    have hlen := psf_length files
    have hsucc := psf_succ_length files
    have hsplit := kept_split files
    refine ⟨?_, ?_, ?_⟩
    · simpa [generate_summary] using hlen
    · simpa [generate_summary] using hsucc
    · simp only [generate_summary]
      omega

/-- Claim C2 counterexample: a single discovered file whose pipeline
result has a (non-password) error is dropped from every tally of
`process_statement_folders`: the summary's successful + failed is 0
although 1 file was discovered, and no skipped tally exists at all. -/
theorem claim_C2_counterexample :
    process_statement_folders [("f1.pdf", .res corruptDoc)] = [] ∧
    (generate_summary (process_statement_folders [("f1.pdf", .res corruptDoc)])).successful +
      (generate_summary (process_statement_folders [("f1.pdf", .res corruptDoc)])).failed = 0 ∧
    [("f1.pdf", MainOutcome.res corruptDoc)].length = 1 := by
  refine ⟨by decide, by decide, rfl⟩

/-! ## Claim C3: skipped vs failed classification -/

/-- Claim C3 counterexample: a corrupt/unreadable document that cannot be
opened by the `is_password_protected` pre-check ("Assume protected if
can't open") is classified as skipped, not failed, even though nothing
shows it is encrypted. -/
theorem claim_C3_counterexample :
    process_directory [unopenableFile] =
      { processed := 0, failed := 0, skipped := 1 } ∧
    unopenableFile.openResult = none := by
  exact ⟨rfl, rfl⟩

/-- Claim C3 (amended): a document the pre-check cannot open is skipped
(whether or not it is encrypted); an encrypted document is skipped and
never counted failed; a document that opens unencrypted but whose
processing returns an error is failed; one that opens and processes
cleanly is successful. For three files — one good, one encrypted, one
that opens but is corrupt during processing — the summary counters are
successful = 1, skipped = 1, failed = 1, total = 3. -/
theorem claim_C3_amended :
    (∀ f : PdfFile, f.openResult = none →
       ∀ c, processFile c f = { c with skipped := c.skipped + 1 }) ∧
    (∀ f : PdfFile, f.openResult = some true →
       ∀ c, processFile c f = { c with skipped := c.skipped + 1 }) ∧
    (∀ f : PdfFile, f.openResult = some false →
       (process_statement f.render f.parseJson f.api).error.isSome = true →
       ∀ c, processFile c f = { c with failed := c.failed + 1 }) ∧
    (∀ f : PdfFile, f.openResult = some false →
       (process_statement f.render f.parseJson f.api).error = none →
       ∀ c, processFile c f = { c with processed := c.processed + 1 }) ∧
    process_directory [goodFile, encryptedFile, corruptFile] =
      { processed := 1, failed := 1, skipped := 1 } := by
  refine ⟨?_, ?_, ?_, ?_, ?_⟩
  · intro f h c
    simp [processFile, is_password_protected, h]
  · intro f h c
    simp [processFile, is_password_protected, h]
  · intro f h he c
    have hn : (process_statement f.render f.parseJson f.api).error.isNone = false := by
      cases hx : (process_statement f.render f.parseJson f.api).error with
      | none => rw [hx] at he; simp at he
      | some e => simp [hx]
    simp [processFile, is_password_protected, h, hn]
  · intro f h he c
    simp [processFile, is_password_protected, h, he]
  · rfl

theorem claim_C3_witness :
    processFile {} corruptFile = { processed := 0, failed := 1, skipped := 0 } := by
  exact claim_C3_amended.2.2.1 corruptFile rfl rfl {}

/-! ## Claim C4: where the boundary is placed -/

lemma foldl_minStep_le_init (l : List (Option Nat)) :
    ∀ pos : Nat, l.foldl minStep pos ≤ pos := by
  induction l with
  | nil => intro pos; simp
  | cons o rest ih =>
    intro pos
    have h1 : rest.foldl minStep (minStep pos o) ≤ minStep pos o := ih _
    have h2 : minStep pos o ≤ pos := by
      cases o with
      | none => simp [minStep]
      | some s => simp only [minStep]; split <;> omega
    simp only [List.foldl_cons]
    omega

lemma foldl_minStep_le_mem (l : List (Option Nat)) :
    ∀ (pos s : Nat), some s ∈ l → l.foldl minStep pos ≤ s := by
  induction l with
  | nil => intro pos s h; simp at h
  | cons o rest ih =>
    intro pos s h
    simp only [List.foldl_cons]
    rcases List.mem_cons.mp h with h1 | h2
    · have h3 : rest.foldl minStep (minStep pos o) ≤ minStep pos o :=
        foldl_minStep_le_init rest _
      have h4 : minStep pos o ≤ s := by
        rw [← h1]; simp only [minStep]; split <;> omega
      omega
    · exact ih _ _ h2

lemma foldl_minStep_attained (l : List (Option Nat)) :
    ∀ pos : Nat, l.foldl minStep pos = pos ∨ some (l.foldl minStep pos) ∈ l := by
  induction l with
  | nil => intro pos; left; rfl
  | cons o rest ih =>
    intro pos
    simp only [List.foldl_cons]
    rcases ih (minStep pos o) with h | h
    · rw [h]
      cases o with
      | none => left; rfl
      | some s =>
        by_cases hs : s < pos
        · right; simp [minStep, hs]
        · left; simp [minStep, hs]
    · right; exact List.mem_cons_of_mem _ h

lemma foldl_minStep_all_none (l : List (Option Nat)) :
    ∀ pos : Nat, (∀ o ∈ l, o = none) → l.foldl minStep pos = pos := by
  induction l with
  | nil => intro pos _; rfl
  | cons o rest ih =>
    intro pos h
    have ho := h o (List.mem_cons_self _ _)
    simp only [List.foldl_cons, ho, minStep]
    exact ih pos (fun x hx => h x (List.mem_cons_of_mem _ hx))

/-- Claim C4 counterexample: on the page `"01/01/2024 foo\nDate bar"` the
date-line marker matches at offset 0 and the keyword marker at offset 15,
so the earliest match offset across all patterns is 0; yet
`extract_text` cuts at the first marker in list order and returns the
text before offset 15, not the (empty) text before offset 0. -/
theorem claim_C4_counterexample :
    earliestMarkerOff (clean_text (strL "01/01/2024 foo\nDate bar")) = some 0 ∧
    firstMarkerHit (clean_text (strL "01/01/2024 foo\nDate bar")) = some 15 ∧
    extract_text [strL "01/01/2024 foo\nDate bar"] = strL "01/01/2024 foo" ∧
    strL "01/01/2024 foo" ≠
      stripL ((clean_text (strL "01/01/2024 foo\nDate bar")).take 0) := by
  refine ⟨by decide, by decide, by decide, by decide⟩

/-- Claim C4 (amended): on a page where at least one boundary pattern
matches, `BankStatementExtractor.extract_text` places the boundary at the
match offset of the first pattern in list order that matches (not the
earliest offset across patterns), appends only the page text before that
offset, and returns immediately; `PDFProcessor._extract_text_from_pdf`
(which examines only the first page) does place its boundary at the
earliest match offset across all of its patterns. -/
theorem claim_C4_amended :
    (∀ (p : Chars) (rest : List Chars) (acc : Chars) (off : Nat),
       firstMarkerHit (clean_text p) = some off →
       extractGo (p :: rest) acc = stripL (acc ++ (clean_text p).take off)) ∧
    (∀ (t : Chars) (s : Nat), some s ∈ indicatorOffsets t → tableStartPos t ≤ s) ∧
    (∀ t : Chars, tableStartPos t ≤ t.length) ∧
    (∀ t : Chars,
       tableStartPos t = t.length ∨ some (tableStartPos t) ∈ indicatorOffsets t) := by
  refine ⟨?_, ?_, ?_, ?_⟩
  · intro p rest acc off h
    simp [extractGo, h]
  · intro t s h
    exact foldl_minStep_le_mem _ _ _ h
  · intro t
    exact foldl_minStep_le_init _ _
  · intro t
    exact foldl_minStep_attained _ _

theorem claim_C4_witness :
    extractGo [strL "Hi\nDate x"] [] =
      stripL ([] ++ (clean_text (strL "Hi\nDate x")).take 3) ∧
    tableStartPos (strL "Transaction Details: x") ≤ 0 :=
  ⟨claim_C4_amended.1 (strL "Hi\nDate x") [] [] 3 (by decide),
   claim_C4_amended.2.1 (strL "Transaction Details: x") 0 (by decide)⟩

/-! ## Claim C8: multi-page scanning without a boundary match -/

lemma extractGo_noMarker (pages : List Chars) :
    ∀ acc : Chars, (∀ p ∈ pages, firstMarkerHit (clean_text p) = none) →
      extractGo pages acc =
        stripL (acc ++ (pages.map (fun p => clean_text p ++ ['\n'])).flatten) := by
  induction pages with
  | nil => intro acc _; simp [extractGo]
  | cons p rest ih =>
    intro acc h
    have hp := h p (List.mem_cons_self _ _)
    have hrest : ∀ q ∈ rest, firstMarkerHit (clean_text q) = none :=
      fun q hq => h q (List.mem_cons_of_mem _ hq)
    simp only [extractGo, hp]
    rw [ih _ hrest]
    simp [List.append_assoc]

/-- Claim C8 counterexample: for the two-page document `["Hello",
"World"]` no boundary pattern matches anywhere, yet
`PDFProcessor._extract_text_from_pdf` returns just the first page
`"Hello"`, not the concatenation `"Hello\nWorld"` of all cleaned pages
(which is what `extract_text` returns): pages after the first are
ignored, refuting the claim for that segmenter. -/
theorem claim_C8_counterexample :
    extract_text_from_pdf (.ok [strL "Hello", strL "World"]) = .ok (strL "Hello") ∧
    extract_text [strL "Hello", strL "World"] = strL "Hello\nWorld" ∧
    stripL (([strL "Hello", strL "World"].map (fun p => clean_text p ++ ['\n'])).flatten) =
      strL "Hello\nWorld" ∧
    strL "Hello" ≠ strL "Hello\nWorld" := by
  refine ⟨rfl, by decide, by decide, by decide⟩

/-- Claim C8 (amended): when no boundary pattern matches on any page,
`BankStatementExtractor.extract_text` scans every page and returns the
stripped newline-joined concatenation of all cleaned pages; but
`PDFProcessor._extract_text_from_pdf` reads only the first page — its
result is independent of all later pages, and with no indicator match it
returns just the stripped first-page text. -/
theorem claim_C8_amended :
    (∀ pages : List Chars, (∀ p ∈ pages, firstMarkerHit (clean_text p) = none) →
       extract_text pages =
         stripL ((pages.map (fun p => clean_text p ++ ['\n'])).flatten)) ∧
    (∀ (p : Chars) (rest rest' : List Chars),
       extract_text_from_pdf (.ok (p :: rest)) = extract_text_from_pdf (.ok (p :: rest'))) ∧
    (∀ (p : Chars) (rest : List Chars), (∀ o ∈ indicatorOffsets p, o = none) →
       extract_text_from_pdf (.ok (p :: rest)) = .ok (stripL p)) := by
  refine ⟨?_, ?_, ?_⟩
  · intro pages h
    have := extractGo_noMarker pages [] h
    simpa [extract_text] using this
  · intro p rest rest'
    rfl
  · intro p rest h
    have hpos : tableStartPos p = p.length := foldl_minStep_all_none _ _ h
    simp [extract_text_from_pdf, headerContent, hpos]

theorem claim_C8_witness :
    extract_text [strL "Hi", strL "yo"] =
      stripL (([strL "Hi", strL "yo"].map (fun p => clean_text p ++ ['\n'])).flatten) :=
  claim_C8_amended.1 [strL "Hi", strL "yo"] (by decide)

/-! ## Claim C5: offset round-trip -/

lemma isPrefixOf_take : ∀ (pat l : Chars), pat.isPrefixOf l = true → l.take pat.length = pat := by
  intro pat
  induction pat with
  | nil => intro l _; simp
  | cons p ps ih =>
    intro l h
    cases l with
    | nil => simp [List.isPrefixOf] at h
    | cons c cs =>
      simp only [List.isPrefixOf, Bool.and_eq_true, beq_iff_eq] at h
      obtain ⟨h1, h2⟩ := h
      simp [List.take, h1, ih cs h2]

lemma findSubAux_spec (pat : Chars) :
    ∀ (t : Chars) (i j : Nat), findSubAux pat i t = some j →
      i ≤ j ∧ pat.isPrefixOf (t.drop (j - i)) = true := by
  intro t
  induction t with
  | nil =>
    intro i j h
    simp only [findSubAux] at h
    split at h
    · rename_i hemp
      obtain rfl : i = j := by simpa using h
      refine ⟨Nat.le_refl _, ?_⟩
      have : pat = [] := by simpa [List.isEmpty_iff] using hemp
      simp [this]
    · simp at h
  | cons c rest ih =>
    intro i j h
    simp only [findSubAux] at h
    split at h
    · rename_i hpre
      obtain rfl : i = j := by simpa using h
      simpa using hpre
    · obtain ⟨h1, h2⟩ := ih (i + 1) j h
      refine ⟨by omega, ?_⟩
      obtain ⟨k, hk⟩ : ∃ k, j - i = k + 1 := ⟨j - i - 1, by omega⟩
      have hk2 : j - (i + 1) = k := by omega
      rw [hk2] at h2
      rw [hk, List.drop_succ_cons]
      exact h2

lemma findSub_spec (pat t : Chars) (j : Nat) :
    findSub pat t = some j → pat.isPrefixOf (t.drop j) = true := by
  intro h
  have := (findSubAux_spec pat t 0 j h).2
  simpa using this

/-- Claim C5: every entity in a processed document's result with both
offsets populated satisfies `text[start:end] == text value` — the slice of
the header text between the offsets is exactly the entity's text. -/
theorem claim_C5 :
    ∀ (render : Except String (List Chars)) (parse : String → Option JsonObj)
      (api : Except String String) (a : Ann) (t : Chars),
      (process_statement render parse api).text = some t →
      a ∈ (process_statement render parse api).entities →
      ((t.drop a.start).take (a.stop - a.start)) = a.text := by
  intro render parse api a t ht hmem
  cases render with
  | error e => simp [process_statement] at ht
  | ok pages =>
    cases hllm : get_entities_from_llm parse api with
    | error e => simp [process_statement, hllm] at ht
    | ok ents =>
      simp only [process_statement, hllm, Option.some.injEq] at ht hmem
      subst ht
      simp only [resolveAnns] at hmem
      rcases List.mem_append.mp hmem with hacc | hper
      · cases hf : findSub (strL ents.account_number) (extract_text pages) with
        | none => rw [hf] at hacc; simp at hacc
        | some s =>
          rw [hf] at hacc
          simp only [List.mem_singleton] at hacc
          subst hacc
          simp only
          have hpre := findSub_spec _ _ _ hf
          have : s + (strL ents.account_number).length - s =
              (strL ents.account_number).length := by omega
          rw [this]
          exact isPrefixOf_take _ _ hpre
      · cases hf : findSub (strL ents.name) (extract_text pages) with
        | none => rw [hf] at hper; simp at hper
        | some s =>
          rw [hf] at hper
          simp only [List.mem_singleton] at hper
          subst hper
          simp only
          have hpre := findSub_spec _ _ _ hf
          have : s + (strL ents.name).length - s = (strL ents.name).length := by omega
          rw [this]
          exact isPrefixOf_take _ _ hpre

theorem claim_C5_witness :
    ((strL "Name: Jane Doe\nAcc No: 12345").drop 23).take (28 - 23) = strL "12345" :=
  claim_C5 (.ok [goodPage]) parseGood (.ok "resp")
    { text := strL "12345", start := 23, stop := 28, label := "ACC_NO" }
    (strL "Name: Jane Doe\nAcc No: 12345") (by decide) (by decide)

/-! ## Claim C6: unlocatable entities -/

/-- Claim C6 counterexample: the remote model returns values `"999"` and
`"Bob"`, neither of which occurs in the header `"Hello friend"`; the
document succeeds but its entity list is empty — the unlocatable entities
are dropped, not retained without offsets. -/
theorem claim_C6_counterexample :
    (process_statement (.ok [strL "Hello friend"]) parseUnloc (.ok "x")).entities = [] ∧
    (process_statement (.ok [strL "Hello friend"]) parseUnloc (.ok "x")).error = none ∧
    containsSub (strL "999") (strL "Hello friend") = false ∧
    containsSub (strL "Bob") (strL "Hello friend") = false := by
  refine ⟨by decide, by decide, by decide, by decide⟩

/-- Claim C6 (amended): when an extracted entity's text value does not
occur as a literal substring of the header, the failure is soft in that
the document still returns successfully (no abort, no error), but the
entity is silently dropped from the document's entity list rather than
retained without offsets; the entity list contains exactly one annotation
per locatable value. -/
theorem claim_C6_amended :
    ∀ (pages : List Chars) (parse : String → Option JsonObj)
      (api : Except String String) (ents : LlmEntities),
      get_entities_from_llm parse api = .ok ents →
      ((process_statement (.ok pages) parse api).error = none ∧
       (findSub (strL ents.account_number) (extract_text pages) = none →
         ∀ a ∈ (process_statement (.ok pages) parse api).entities, a.label ≠ "ACC_NO") ∧
       (findSub (strL ents.name) (extract_text pages) = none →
         ∀ a ∈ (process_statement (.ok pages) parse api).entities, a.label ≠ "PER") ∧
       (process_statement (.ok pages) parse api).entities.length =
         ((if (findSub (strL ents.account_number) (extract_text pages)).isSome then 1 else 0) +
          (if (findSub (strL ents.name) (extract_text pages)).isSome then 1 else 0))) := by
  intro pages parse api ents h
  refine ⟨?_, ?_, ?_, ?_⟩
  · simp [process_statement, h]
  · intro hf a ha
    simp only [process_statement, h, resolveAnns, hf, List.nil_append] at ha
    cases hg : findSub (strL ents.name) (extract_text pages) with
    | none => rw [hg] at ha; simp at ha
    | some s =>
      rw [hg] at ha
      simp only [List.mem_singleton] at ha
      subst ha
      simp
  · intro hf a ha
    simp only [process_statement, h, resolveAnns, hf, List.append_nil] at ha
    cases hg : findSub (strL ents.account_number) (extract_text pages) with
    | none => rw [hg] at ha; simp at ha
    | some s =>
      rw [hg] at ha
      simp only [List.mem_singleton] at ha
      subst ha
      simp
  · simp only [process_statement, h, resolveAnns]
    cases hf : findSub (strL ents.account_number) (extract_text pages) with
    | none =>
      cases hg : findSub (strL ents.name) (extract_text pages) with
      | none => simp
      | some s => simp
    | some s =>
      cases hg : findSub (strL ents.name) (extract_text pages) with
      | none => simp
      | some s2 => simp

theorem claim_C6_witness :
    (process_statement (.ok [strL "Hello friend"]) parseUnloc (.ok "x")).error = none ∧
    (process_statement (.ok [strL "Hello friend"]) parseUnloc (.ok "x")).entities.length = 0 := by
  have h := claim_C6_amended [strL "Hello friend"] parseUnloc (.ok "x")
    { account_number := "999", name := "Bob" } rfl
  refine ⟨h.1, ?_⟩
  have h4 := h.2.2.2
  rw [h4]
  decide

/-! ## Claim C7: remote-response parsing and validation -/

/-- Claim C7 counterexample: a parsed response whose required fields are
present but empty (or whitespace-only) after trimming is accepted as a
success — `get_entities_from_llm` validates only the presence of the two
keys, never non-emptiness of the trimmed values. -/
theorem claim_C7_counterexample :
    get_entities_from_llm parseEmptyFields (.ok "irrelevant") =
      .ok { account_number := "", name := "Bo b" } ∧
    pyStripS "" = "" := by
  exact ⟨rfl, rfl⟩

/-- Claim C7 (amended): if the response fails to parse, exactly one
cleanup pass (stripping the markdown code fences and embedded newlines)
is attempted followed by one reparse before failing permanently; the
parsed object is accepted iff both required fields are present — a
missing field is a hard failure, but the field values are only trimmed,
never checked for non-emptiness: an empty trimmed value is accepted. -/
theorem claim_C7_amended :
    ∀ (parse : String → Option JsonObj) (raw : String),
      ((parse (pyStripS raw) = none → parse (cleanupContent (pyStripS raw)) = none →
          get_entities_from_llm parse (.ok raw) = .error "JSONDecodeError after cleanup") ∧
       (∀ r : JsonObj,
          (parse (pyStripS raw) = some r ∨
            (parse (pyStripS raw) = none ∧ parse (cleanupContent (pyStripS raw)) = some r)) →
          ((∀ a n, lookupKey r "account_number" = some a → lookupKey r "name" = some n →
              get_entities_from_llm parse (.ok raw) =
                .ok { account_number := pyStripS a, name := pyStripS n }) ∧
           (lookupKey r "account_number" = none ∨ lookupKey r "name" = none →
              get_entities_from_llm parse (.ok raw) = .error "Missing required fields")))) := by
  intro parse raw
  constructor
  · intro h1 h2
    simp [get_entities_from_llm, h1, h2]
  · intro r hr
    have hparsed :
        (match parse (pyStripS raw) with
         | some r' => some r'
         | none => parse (cleanupContent (pyStripS raw))) = some r := by
      rcases hr with h | ⟨h1, h2⟩
      · simp [h]
      · simp [h1, h2]
    constructor
    · intro a n ha hn
      simp [get_entities_from_llm, hparsed, ha, hn]
    · intro hmiss
      rcases hmiss with ha | hn
      · simp [get_entities_from_llm, hparsed, ha]
      · cases hacc : lookupKey r "account_number" with
        | none => simp [get_entities_from_llm, hparsed, hacc]
        | some a => simp [get_entities_from_llm, hparsed, hacc, hn]

/-- Claim C7 witness (spec scenario D): a payload wrapped in a markdown
fence fails the first parse, parses after the single cleanup pass, and
the document succeeds. -/
theorem claim_C7_witness :
    get_entities_from_llm parseScenD (.ok fencedRaw) =
      .ok { account_number := "123", name := "Jane" } := by
  have h := ((claim_C7_amended parseScenD fencedRaw).2
      [("account_number", "123"), ("name", "Jane")] (Or.inr ⟨rfl, rfl⟩)).1
      "123" "Jane" rfl rfl
  exact h

/-! ## Claim C9: confidence buckets partition the successful entities -/

lemma bucketStep_eq (st : List ConfMatch × List ConfMatch) (r : MainRecord) :
    bucketStep st r =
      (st.1 ++ (if r.success then resultMatches r else []).filter isHighM,
       st.2 ++ (if r.success then resultMatches r else []).filter (fun m => ! isHighM m)) := by
  rcases st with ⟨h, l⟩
  cases hs : r.success with
  | false => simp [bucketStep, hs]
  | true =>
    rcases hp : r.perEnt with _ | ⟨t, c⟩ <;> rcases ha : r.accEnt with _ | ⟨t2, c2⟩
    · simp [bucketStep, resultMatches, hs, hp, ha]
    · cases hc2 : isHigh c2 <;>
        simp [bucketStep, resultMatches, hs, hp, ha, isHighM, hc2, List.filter]
    · cases hc : isHigh c <;>
        simp [bucketStep, resultMatches, hs, hp, ha, isHighM, hc, List.filter]
    · cases hc : isHigh c <;> cases hc2 : isHigh c2 <;>
        simp [bucketStep, resultMatches, hs, hp, ha, isHighM, hc, hc2, List.filter]
  
lemma confBuckets_foldl (rs : List MainRecord) :
    ∀ (h l : List ConfMatch),
      rs.foldl bucketStep (h, l) =
        (h ++ (successMatches rs).filter isHighM,
         l ++ (successMatches rs).filter (fun m => ! isHighM m)) := by
  induction rs with
  | nil => intro h l; simp [successMatches]
  | cons r rest ih =>
    intro h l
    simp only [List.foldl_cons]
    rw [bucketStep_eq, ih]
    have hsm : successMatches (r :: rest) =
        (if r.success then resultMatches r else []) ++ successMatches rest := by
      cases hs : r.success <;> simp [successMatches, List.filter, hs]
    rw [hsm]
    simp [List.filter_append, List.append_assoc]

/-- Claim C9: in `generate_summary`, the high- and low-confidence lists
partition the label-entity occurrences of the successful results: the
high list is exactly those with confidence strictly greater than 0.8, the
low list is exactly the rest (including entities with absent or falsy
confidence, treated as 0), and the two buckets share no entity occurrence
(their intersection is empty). -/
theorem claim_C9 :
    ∀ rs : List MainRecord,
      (generate_summary rs).highConf = (successMatches rs).filter isHighM ∧
      (generate_summary rs).lowConf =
        (successMatches rs).filter (fun m => ! isHighM m) ∧
      (generate_summary rs).highConf.inter (generate_summary rs).lowConf = [] := by
  intro rs
  have hb := confBuckets_foldl rs [] []
  have h1 : (generate_summary rs).highConf = (successMatches rs).filter isHighM := by
    simp [generate_summary, confBuckets, hb]
  have h2 : (generate_summary rs).lowConf =
      (successMatches rs).filter (fun m => ! isHighM m) := by
    simp [generate_summary, confBuckets, hb]
  refine ⟨h1, h2, ?_⟩
  rw [h1, h2, List.eq_nil_iff_forall_not_mem]
  intro m hm
  obtain ⟨hmh, hml⟩ := List.mem_inter_iff.mp hm
  have hhi := (List.mem_filter.mp hmh).2
  have hlo := (List.mem_filter.mp hml).2
  rw [hhi] at hlo
  simp at hlo

/-! ## Claim C10: the stored-documents invariant of PDFProcessor -/

lemma runStep_all (st : List ProcessedDocument) (inp : PdfInput) :
    (st.all fun d => d.error.isNone) = true →
    ((runStep st inp).all fun d => d.error.isNone) = true := by
  intro h
  unfold runStep process_single_pdf
  rcases hx : extract_text_from_pdf inp.2.1 with e | header
  · simpa [hx] using h
  · rcases hy : inp.2.2 header with e | ents
    · simpa [hx, hy] using h
    · simp [hx, hy, List.all_append, h]

lemma runAll_foldl_all (inputs : List PdfInput) :
    ∀ st : List ProcessedDocument, (st.all fun d => d.error.isNone) = true →
      ((inputs.foldl runStep st).all fun d => d.error.isNone) = true := by
  induction inputs with
  | nil => intro st h; simpa using h
  | cons i rest ih =>
    intro st h
    simp only [List.foldl_cons]
    exact ih _ (runStep_all st i h)

lemma all_isNone_filters (st : List ProcessedDocument) :
    (st.all fun d => d.error.isNone) = true →
    (st.filter (fun d => d.error.isSome) = [] ∧ st.filter (fun d => d.error.isNone) = st) := by
  induction st with
  | nil => intro _; exact ⟨rfl, rfl⟩
  | cons d rest ih =>
    intro h
    simp only [List.all_cons, Bool.and_eq_true] at h
    obtain ⟨hd, hrest⟩ := h
    obtain ⟨ih1, ih2⟩ := ih hrest
    have hsome : d.error.isSome = false := by
      cases he : d.error with
      | none => simp
      | some e => rw [he] at hd; simp at hd
    constructor
    · simp [List.filter, hsome, ih1]
    · simp [List.filter, hd, ih2]

/-- Claim C10: every document stored in the processor's
`processed_documents` list has its error field unset (errored documents
are returned without being appended), so `PDFProcessor.get_summary`
always reports failed = 0 and successful = total_documents, however many
errored documents were processed. -/
theorem claim_C10 :
    ∀ inputs : List PdfInput,
      ((runAll inputs).all fun d => d.error.isNone) = true ∧
      (get_summary (runAll inputs)).failed = 0 ∧
      (get_summary (runAll inputs)).successful =
        (get_summary (runAll inputs)).total_documents := by
  intro inputs
  have hall : ((runAll inputs).all fun d => d.error.isNone) = true :=
    runAll_foldl_all inputs [] rfl
  obtain ⟨h1, h2⟩ := all_isNone_filters _ hall
  refine ⟨hall, ?_, ?_⟩
  · simp [get_summary, h1]
  · simp [get_summary, h2]
